import Mathlib

/-!
Verification of the rate-limited batch API client pattern of the
`ado-automation` scripts.

The Python scripts are short linear procedures around HTTP calls.  We embed
the parts the specification talks about:

* the loop-based retry clients `safe_get_request` / `safe_post_request` of
  `github_repo_attach-code-security-config.py` (namespace `AttachCfg`),
* the recursive retry helpers `safe_get_request` / `safe_put_request` of
  `github_repo_add_topics.py` (namespace `AddTopics`),
* the batch partition loop and the environment-variable resolvers of
  `github_repo_attach-code-security-config.py` (namespace `AttachCfg`),
* the topic-merging logic `add_topics_to_repo` of
  `github_repo_add_topics.py` (namespace `AddTopics`).

Modelling conventions.  The network is a finite environment trace: a list of
pairs `(response, current_time)`, one per HTTP request issued, where
`current_time` is the value `time.time()` observed right after that request
returns (times are modelled at integer-second granularity, matching the
`int(time.time())` reads of the source).  The URL, headers and body of a
request do not influence the retry control flow, so they are not part of the
embedding; they only determine which responses the environment produces.  A
client run returns the outcome (returned response, raised timeout error, or
exhaustion of the finite trace — the model image of an infinite retry
sequence), the list of sleeps it performed, and the number of HTTP requests
it issued.  Within one loop iteration the source reads the clock a second
time inside `wait_for_rate_limit_reset`; the model identifies that read with
the iteration's `current_time`.
-/

/-- An HTTP response as the scripts observe it: a numeric status code and the
response headers, an association list from header name to value. -/
structure Response where
  status : Nat
  headers : List (String × String)
deriving DecidableEq, Repr

/-- Header lookup, mirroring Python `response.headers.get(k)` and the guard
`k in response.headers`. -/
def headerLookup (hs : List (String × String)) (k : String) : Option String :=
  (hs.find? (fun p => p.1 == k)).map (fun p => p.2)

/-- The rate-limit retry condition shared verbatim by every script:
`status_code == 403 and "X-RateLimit-Remaining" in headers and
headers["X-RateLimit-Remaining"] == "0"`. -/
def isRateLimited (r : Response) : Bool :=
  r.status == 403 && (headerLookup r.headers "X-RateLimit-Remaining" == some "0")

/-- Decimal numeral parse of a character sequence: the digit interpretation
Python `int` gives to a non-empty all-digit string. -/
def pyNatChars? (cs : List Char) : Option Nat :=
  if cs.isEmpty then none
  else if cs.all (fun c => c.isDigit) then
    some (cs.foldl (fun acc c => acc * 10 + (c.toNat - 48)) 0)
  else none

/-- Python `int(...)` on a string, for the plain decimal literals the
scripts consume: an optional minus sign followed by digits. -/
def pyIntChars? : List Char → Option Int
  | [] => none
  | c :: rest =>
    if c == '-' then (pyNatChars? rest).map (fun n => -(n : Int))
    else (pyNatChars? (c :: rest)).map (fun n => (n : Int))

/-- Source `get_rate_limit_reset_time` (duplicated identically across the
scripts): `int(response.headers.get("X-RateLimit-Reset", 0))`.  The scripts
rely on the API contract that a present header is a decimal epoch-seconds
integer; a present non-numeric header (on which Python `int` would raise) is
outside that contract and modelled as 0. -/
def get_rate_limit_reset_time (r : Response) : Int :=
  match headerLookup r.headers "X-RateLimit-Reset" with
  | none => 0
  | some s => (pyIntChars? s.data).getD 0

/-- Why a sleep was performed: the rate-limit wait or the conflict back-off. -/
inductive SleepCause where
  | rateLimit
  | conflict
deriving DecidableEq, Repr

/-- One `time.sleep` call: the clock value of the iteration that slept and
the duration slept. -/
structure SleepEvent where
  now : Int
  duration : Int
  cause : SleepCause
deriving DecidableEq, Repr

/-- How a client run ended: a returned response, a raised `TimeoutError`
(carrying the source message string), or exhaustion of the finite
environment trace. -/
inductive Outcome where
  | ok (r : Response)
  | timeoutErr (msg : String)
  | outOfResponses
deriving DecidableEq, Repr

/-- Observable result of a client run: its outcome, the sleeps performed in
order, and the number of HTTP requests issued. -/
structure RunResult where
  outcome : Outcome
  sleeps : List SleepEvent
  requests : Nat
deriving DecidableEq, Repr

/-- Durations of all sleeps of a run, in order. -/
def sleepDurations (rr : RunResult) : List Int :=
  rr.sleeps.map (fun e => e.duration)

/-- Durations of the conflict back-off sleeps of a run, in order. -/
def conflictSleepDurations (rr : RunResult) : List Int :=
  (rr.sleeps.filter (fun e => e.cause == SleepCause.conflict)).map (fun e => e.duration)

/-- Total time a run spent sleeping. -/
def totalSleep (rr : RunResult) : Int :=
  (sleepDurations rr).sum

/-- Source `wait_for_rate_limit_reset` (duplicated identically across the
scripts): computes `wait_time = reset_time - int(time.time()) + 10` and
sleeps exactly when `wait_time > 0`.  Returns the sleep events performed. -/
def wait_for_rate_limit_reset (reset_time now : Int) : List SleepEvent :=
  let wait_time := reset_time - now + 10
  if wait_time > 0 then [⟨now, wait_time, SleepCause.rateLimit⟩] else []

namespace AttachCfg

/-- Source `safe_get_request` of
`github_repo_attach-code-security-config.py` (lines 131-153): an infinite
`while True` loop that re-requests on a rate-limited 403, raising
`TimeoutError` when `current_time - start_time > timeout_seconds` is observed
before sleeping, and returns any other response as-is.  The recursion is over
the finite environment trace. -/
def safe_get_request (timeout_seconds start_time : Int) :
    List (Response × Int) → RunResult
  | [] => ⟨Outcome.outOfResponses, [], 0⟩
  | (response, current_time) :: rest =>
    if isRateLimited response then
      if current_time - start_time > timeout_seconds then
        ⟨Outcome.timeoutErr "Request timed out while waiting for rate limit reset.", [], 1⟩
      else
        let reset_time := get_rate_limit_reset_time response
        let k := safe_get_request timeout_seconds start_time rest
        ⟨k.outcome, wait_for_rate_limit_reset reset_time current_time ++ k.sleeps,
          k.requests + 1⟩
    else
      ⟨Outcome.ok response, [], 1⟩

/-- Body of the `while True` loop of source `safe_post_request` (lines
155-190), with the mutable `backoff_time` made an explicit parameter.  On a
rate-limited 403 it behaves as the GET loop; on a 409 it checks the timeout,
sleeps `backoff_time`, doubles `backoff_time` and retries; any other response
is returned as-is. -/
def safe_post_loop (timeout_seconds start_time backoff_time : Int) :
    List (Response × Int) → RunResult
  | [] => ⟨Outcome.outOfResponses, [], 0⟩
  | (response, current_time) :: rest =>
    if isRateLimited response then
      if current_time - start_time > timeout_seconds then
        ⟨Outcome.timeoutErr "Request timed out while waiting for rate limit reset.", [], 1⟩
      else
        let reset_time := get_rate_limit_reset_time response
        let k := safe_post_loop timeout_seconds start_time backoff_time rest
        ⟨k.outcome, wait_for_rate_limit_reset reset_time current_time ++ k.sleeps,
          k.requests + 1⟩
    else if response.status == 409 then
      if current_time - start_time > timeout_seconds then
        ⟨Outcome.timeoutErr "Request timed out due to repeated conflicts.", [], 1⟩
      else
        let k := safe_post_loop timeout_seconds start_time (backoff_time * 2) rest
        ⟨k.outcome, ⟨current_time, backoff_time, SleepCause.conflict⟩ :: k.sleeps,
          k.requests + 1⟩
    else
      ⟨Outcome.ok response, [], 1⟩

/-- Source `safe_post_request`: `backoff_time = 1` then the loop. -/
def safe_post_request (timeout_seconds start_time : Int)
    (responses : List (Response × Int)) : RunResult :=
  safe_post_loop timeout_seconds start_time 1 responses

/-- Source exception `EnvVarMissingError`, carrying the variable name. -/
structure EnvVarMissingError where
  env_var_name : String
deriving DecidableEq, Repr

/-- Source `get_environment_variable_or_raise` (lines 17-21): the process
environment is a partial map from names to values (`os.getenv` returns
`None` when unset); `if not value` is true exactly when the variable is
unset or the empty string. -/
def get_environment_variable_or_raise (env : String → Option String)
    (env_var_name : String) : Except EnvVarMissingError String :=
  match env env_var_name with
  | none => Except.error ⟨env_var_name⟩
  | some value => if value = "" then Except.error ⟨env_var_name⟩ else Except.ok value

/-- Source `get_repo_batch_size` (lines 30-39): `os.getenv("BATCH_SIZE", 1)`
yields the integer default 1 when the variable is unset, otherwise the
string value, which `int(...)` parses (raising `ValueError`, the error case,
when it is not a decimal integer literal). -/
def get_repo_batch_size (env : String → Option String) : Except String Int :=
  match env "BATCH_SIZE" with
  | none => Except.ok 1
  | some s =>
    match pyIntChars? s.data with
    | some n => Except.ok n
    | none => Except.error "invalid literal for int"

/-- Python `float(...)` on the decimal literals the scripts use: an optional
minus sign, an integer part, and an optional fractional part (exotic float
syntax such as exponents or a bare leading or trailing dot is out of scope
of these scripts and maps to the error case). -/
def pyFloat? (s : String) : Option Rat :=
  match s.data.splitOn '.' with
  | [intPart] => (pyIntChars? intPart).map (fun n => (n : Rat))
  | [intPart, fracPart] =>
    match pyIntChars? intPart, pyNatChars? fracPart with
    | some n, some f =>
      let mag : Rat := (n.natAbs : Rat) + (f : Rat) / (10 : Rat) ^ fracPart.length
      some (if s.data.head? = some '-' then -mag else mag)
    | _, _ => none
  | _ => none

/-- Source `get_api_timeout_seconds` (lines 35-39):
`float(os.getenv("API_TIMEOUT_SECONDS", "60"))`. -/
def get_api_timeout_seconds (env : String → Option String) : Except String Rat :=
  match pyFloat? ((env "API_TIMEOUT_SECONDS").getD "60") with
  | some v => Except.ok v
  | none => Except.error "could not convert string to float"

/-- Source batch count (line 378): `num_batches = ceil(len(repo_names) /
batch_size)`, which for a positive integer `batch_size` is the rounded-up
integer division below. -/
def numBatches (n batch_size : Nat) : Nat :=
  (n + batch_size - 1) / batch_size

/-- Source batch loop (lines 380-389): for `i in range(num_batches)` the
batch is the slice `repo_names[i*batch_size : i*batch_size + batch_size]`. -/
def batches {α : Type} (repo_names : List α) (batch_size : Nat) : List (List α) :=
  (List.range (numBatches repo_names.length batch_size)).map
    (fun i => (repo_names.drop (i * batch_size)).take batch_size)

end AttachCfg

namespace AddTopics

/-- Source `safe_get_request` of `github_repo_add_topics.py` (lines 87-94)
and, identically, of `github_repo_information.py` (lines 85-91): the
recursive helper with no timeout parameter — on a rate-limited 403 it waits
for the reset time and recurses unconditionally; any other response is
returned. -/
def safe_get_request : List (Response × Int) → RunResult
  | [] => ⟨Outcome.outOfResponses, [], 0⟩
  | (response, current_time) :: rest =>
    if isRateLimited response then
      let reset_time := get_rate_limit_reset_time response
      let k := safe_get_request rest
      ⟨k.outcome, wait_for_rate_limit_reset reset_time current_time ++ k.sleeps,
        k.requests + 1⟩
    else
      ⟨Outcome.ok response, [], 1⟩

/-- Source `safe_put_request` of `github_repo_add_topics.py` (lines 96-103):
textually the same retry logic as its `safe_get_request`, issuing PUT
requests. -/
def safe_put_request : List (Response × Int) → RunResult
  | [] => ⟨Outcome.outOfResponses, [], 0⟩
  | (response, current_time) :: rest =>
    if isRateLimited response then
      let reset_time := get_rate_limit_reset_time response
      let k := safe_put_request rest
      ⟨k.outcome, wait_for_rate_limit_reset reset_time current_time ++ k.sleeps,
        k.requests + 1⟩
    else
      ⟨Outcome.ok response, [], 1⟩

/-- What `add_topics_to_repo` does after fetching the current topics: skip
without an update request, or issue one update request with the given topic
list. -/
inductive TopicsAction where
  | skipNoTopics
  | skipAllExist
  | update (topics : List String)
deriving DecidableEq, Repr

/-- Decision logic of source `add_topics_to_repo` (lines 176-204), as a
function of the fetched current topics and the requested new topics:
`if not new_topics` skip; if `set(new_topics).issubset(set(current_topics))`
skip; else submit `list(set(current_topics + new_topics))` via
`update_repo_topics`.  Python materialises the set in unspecified order; the
model keeps first occurrences (`List.dedup`), which agrees with the source
on the set of topics and on duplicate-freedom, the only properties the
callers rely on. -/
def add_topics_to_repo (current_topics new_topics : List String) : TopicsAction :=
  if new_topics.isEmpty then TopicsAction.skipNoTopics
  else if new_topics.all (fun t => current_topics.contains t) then TopicsAction.skipAllExist
  else TopicsAction.update ((current_topics ++ new_topics).dedup)

end AddTopics

/-- Sample rate-limited response used by concrete witnesses: a 403 whose
reset header is 5 seconds after the clock value 3 it is observed at. -/
def rlResponse : Response :=
  ⟨403, [("X-RateLimit-Remaining", "0"), ("X-RateLimit-Reset", "8")]⟩

/-- Sample successful response used by concrete witnesses. -/
def okResponse : Response :=
  ⟨200, []⟩

/-- Sample conflict response used by concrete witnesses. -/
def conflictResponse : Response :=
  ⟨409, []⟩

/-! ## Helper lemmas about the loop-based retry clients -/

theorem mem_wait_for_rate_limit_reset (a b : Int) (e : SleepEvent)
    (h : e ∈ wait_for_rate_limit_reset a b) :
    e.now = b ∧ e.cause = SleepCause.rateLimit := by
  unfold wait_for_rate_limit_reset at h
  by_cases hw : a - b + 10 > 0 <;> simp [hw] at h
  rw [h]
  exact ⟨rfl, rfl⟩

theorem safe_get_sleeps_within_budget (ts st : Int) :
    ∀ (trace : List (Response × Int)) (e : SleepEvent),
      e ∈ (AttachCfg.safe_get_request ts st trace).sleeps → e.now - st ≤ ts := by
  intro trace
  induction trace with
  | nil => intro e he; simp [AttachCfg.safe_get_request] at he
  | cons p rest ih =>
    obtain ⟨r, now⟩ := p
    intro e he
    cases h1 : isRateLimited r with
    | false => simp [AttachCfg.safe_get_request, h1] at he
    | true =>
      by_cases h2 : now - st > ts
      · simp [AttachCfg.safe_get_request, h1, h2] at he
      · simp only [AttachCfg.safe_get_request, h1, if_true, if_neg h2] at he
        rcases List.mem_append.mp he with h | h
        · have := (mem_wait_for_rate_limit_reset _ _ _ h).1
          omega
        · exact ih e h

theorem safe_post_loop_sleeps_within_budget (ts st : Int) :
    ∀ (trace : List (Response × Int)) (backoff : Int) (e : SleepEvent),
      e ∈ (AttachCfg.safe_post_loop ts st backoff trace).sleeps → e.now - st ≤ ts := by
  intro trace
  induction trace with
  | nil => intro backoff e he; simp [AttachCfg.safe_post_loop] at he
  | cons p rest ih =>
    obtain ⟨r, now⟩ := p
    intro backoff e he
    cases h1 : isRateLimited r with
    | true =>
      by_cases h2 : now - st > ts
      · simp [AttachCfg.safe_post_loop, h1, h2] at he
      · simp only [AttachCfg.safe_post_loop, h1, if_true, if_neg h2] at he
        rcases List.mem_append.mp he with h | h
        · have := (mem_wait_for_rate_limit_reset _ _ _ h).1
          omega
        · exact ih backoff e h
    | false =>
      cases h3 : (r.status == 409) with
      | false => simp [AttachCfg.safe_post_loop, h1, h3] at he
      | true =>
        by_cases h2 : now - st > ts
        · simp [AttachCfg.safe_post_loop, h1, h3, h2] at he
        · simp [AttachCfg.safe_post_loop, h1, h3, h2] at he
          rcases he with h | h
          · rw [h]
            simpa using by omega
          · exact ih (backoff * 2) e h

theorem safe_get_timeout_cause (ts st : Int) :
    ∀ (trace : List (Response × Int)) (msg : String),
      (AttachCfg.safe_get_request ts st trace).outcome = Outcome.timeoutErr msg →
      ∃ p ∈ trace, isRateLimited p.1 = true ∧ p.2 - st > ts := by
  intro trace
  induction trace with
  | nil => intro msg h; simp [AttachCfg.safe_get_request] at h
  | cons p rest ih =>
    obtain ⟨r, now⟩ := p
    intro msg h
    cases h1 : isRateLimited r with
    | false => simp [AttachCfg.safe_get_request, h1] at h
    | true =>
      by_cases h2 : now - st > ts
      · exact ⟨(r, now), List.mem_cons_self .., h1, h2⟩
      · simp only [AttachCfg.safe_get_request, h1, if_true, if_neg h2] at h
        obtain ⟨q, hq, hq2⟩ := ih msg h
        exact ⟨q, List.mem_cons_of_mem _ hq, hq2⟩

theorem safe_post_loop_timeout_cause (ts st : Int) :
    ∀ (trace : List (Response × Int)) (backoff : Int) (msg : String),
      (AttachCfg.safe_post_loop ts st backoff trace).outcome = Outcome.timeoutErr msg →
      ∃ p ∈ trace, (isRateLimited p.1 = true ∨ p.1.status = 409) ∧ p.2 - st > ts := by
  intro trace
  induction trace with
  | nil => intro backoff msg h; simp [AttachCfg.safe_post_loop] at h
  | cons p rest ih =>
    obtain ⟨r, now⟩ := p
    intro backoff msg h
    cases h1 : isRateLimited r with
    | true =>
      by_cases h2 : now - st > ts
      · exact ⟨(r, now), List.mem_cons_self .., Or.inl h1, h2⟩
      · simp only [AttachCfg.safe_post_loop, h1, if_true, if_neg h2] at h
        obtain ⟨q, hq, hq2⟩ := ih backoff msg h
        exact ⟨q, List.mem_cons_of_mem _ hq, hq2⟩
    | false =>
      cases h3 : (r.status == 409) with
      | false => simp [AttachCfg.safe_post_loop, h1, h3] at h
      | true =>
        by_cases h2 : now - st > ts
        · exact ⟨(r, now), List.mem_cons_self .., Or.inr (by simpa using h3), h2⟩
        · simp only [AttachCfg.safe_post_loop, h1, h3, if_true, if_false, if_neg h2] at h
          obtain ⟨q, hq, hq2⟩ := ih (backoff * 2) msg h
          exact ⟨q, List.mem_cons_of_mem _ hq, hq2⟩

theorem safe_post_loop_all_retryable (ts st : Int) :
    ∀ (trace : List (Response × Int)) (backoff : Int),
      (∀ p ∈ trace, (isRateLimited p.1 = true ∨ p.1.status = 409) ∧ p.2 - st ≤ ts) →
      (AttachCfg.safe_post_loop ts st backoff trace).outcome = Outcome.outOfResponses
      ∧ (AttachCfg.safe_post_loop ts st backoff trace).requests = trace.length := by
  intro trace
  induction trace with
  | nil => intro backoff _; simp [AttachCfg.safe_post_loop]
  | cons p rest ih =>
    obtain ⟨r, now⟩ := p
    intro backoff hall
    obtain ⟨hr, hnow⟩ := hall (r, now) (List.mem_cons_self ..)
    have hrest : ∀ p ∈ rest, (isRateLimited p.1 = true ∨ p.1.status = 409) ∧ p.2 - st ≤ ts :=
      fun q hq => hall q (List.mem_cons_of_mem _ hq)
    have h2 : ¬ now - st > ts := by omega
    cases h1 : isRateLimited r with
    | true =>
      have := ih backoff hrest
      simp only [AttachCfg.safe_post_loop, h1, if_true, if_neg h2]
      simp [this.1, this.2]
    | false =>
      have h3 : (r.status == 409) = true := by
        rcases hr with h | h
        · rw [h1] at h; simp at h
        · simpa using h
      have := ih (backoff * 2) hrest
      simp only [AttachCfg.safe_post_loop, h1, h3, if_true, if_false, if_neg h2]
      simp [this.1, this.2]

/-- C1: for every environment trace, the loop-based clients never commit to a
sleep once the observed elapsed time exceeds the configured timeout — at
every decision point either the elapsed time is within `timeout_seconds` or
the call fails with a timeout error; a timeout error is raised only when a
retryable (rate-limited 403 or, for POST, 409) response was observed past the
budget, and the timeout is the only stopping condition: on a trace of nothing
but in-budget retryable responses the POST client consumes every response and
stops for no other reason. -/
theorem claim_C1 (ts st : Int) (trace : List (Response × Int)) :
    (∀ e ∈ (AttachCfg.safe_get_request ts st trace).sleeps, e.now - st ≤ ts)
    ∧ (∀ e ∈ (AttachCfg.safe_post_request ts st trace).sleeps, e.now - st ≤ ts)
    ∧ (∀ msg, (AttachCfg.safe_get_request ts st trace).outcome = Outcome.timeoutErr msg →
        ∃ p ∈ trace, isRateLimited p.1 = true ∧ p.2 - st > ts)
    ∧ (∀ msg, (AttachCfg.safe_post_request ts st trace).outcome = Outcome.timeoutErr msg →
        ∃ p ∈ trace, (isRateLimited p.1 = true ∨ p.1.status = 409) ∧ p.2 - st > ts)
    ∧ ((∀ p ∈ trace, (isRateLimited p.1 = true ∨ p.1.status = 409) ∧ p.2 - st ≤ ts) →
        (AttachCfg.safe_post_request ts st trace).outcome = Outcome.outOfResponses
        ∧ (AttachCfg.safe_post_request ts st trace).requests = trace.length) :=
  ⟨fun e he => safe_get_sleeps_within_budget ts st trace e he,
   fun e he => safe_post_loop_sleeps_within_budget ts st trace 1 e he,
   fun msg h => safe_get_timeout_cause ts st trace msg h,
   fun msg h => safe_post_loop_timeout_cause ts st trace 1 msg h,
   fun hall => safe_post_loop_all_retryable ts st trace 1 hall⟩

/-- Witness for C1 at a concrete trace: a rate-limited 403 observed 3 seconds
in (budget 10) is slept through, and the sleep is within budget. -/
theorem claim_C1_witness :
    (⟨3, 15, SleepCause.rateLimit⟩ : SleepEvent) ∈
      (AttachCfg.safe_get_request 10 0 [(rlResponse, 3), (okResponse, 4)]).sleeps
    ∧ (⟨3, 15, SleepCause.rateLimit⟩ : SleepEvent).now - 0 ≤ 10 :=
  ⟨by decide, (claim_C1 10 0 [(rlResponse, 3), (okResponse, 4)]).1 _ (by decide)⟩

/-- C3: on any retry iteration whose response is retryable and whose observed
elapsed time already exceeds the timeout, the loop-based clients raise the
timeout error of that branch immediately — no sleep is performed and no
further request is issued (the elapsed-time check precedes the sleep). -/
theorem claim_C3 (ts st now : Int) (r : Response) (rest : List (Response × Int)) :
    (isRateLimited r = true → now - st > ts →
      AttachCfg.safe_get_request ts st ((r, now) :: rest) =
        ⟨Outcome.timeoutErr "Request timed out while waiting for rate limit reset.", [], 1⟩
      ∧ AttachCfg.safe_post_request ts st ((r, now) :: rest) =
        ⟨Outcome.timeoutErr "Request timed out while waiting for rate limit reset.", [], 1⟩)
    ∧ (r.status = 409 → now - st > ts →
      AttachCfg.safe_post_request ts st ((r, now) :: rest) =
        ⟨Outcome.timeoutErr "Request timed out due to repeated conflicts.", [], 1⟩) := by
  constructor
  · intro h1 h2
    constructor
    · simp [AttachCfg.safe_get_request, h1, h2]
    · simp [AttachCfg.safe_post_request, AttachCfg.safe_post_loop, h1, h2]
  · intro h3 h2
    have h1 : isRateLimited r = false := by simp [isRateLimited, h3]
    simp [AttachCfg.safe_post_request, AttachCfg.safe_post_loop, h1, h3, h2]

/-- Witness for C3: with budget 10 and a response observed at elapsed time
100, both branches fail immediately with the source timeout messages. -/
theorem claim_C3_witness :
    (AttachCfg.safe_get_request 10 0 [(rlResponse, 100)] =
      ⟨Outcome.timeoutErr "Request timed out while waiting for rate limit reset.", [], 1⟩)
    ∧ (AttachCfg.safe_post_request 10 0 [(conflictResponse, 100)] =
      ⟨Outcome.timeoutErr "Request timed out due to repeated conflicts.", [], 1⟩) :=
  ⟨((claim_C3 10 0 100 rlResponse []).1 (by decide) (by decide)).1,
   (claim_C3 10 0 100 conflictResponse []).2 (by decide) (by decide)⟩

theorem wait_filter_conflict (a b : Int) :
    (wait_for_rate_limit_reset a b).filter (fun e => e.cause == SleepCause.conflict) = [] := by
  unfold wait_for_rate_limit_reset
  by_cases hw : a - b + 10 > 0 <;> simp [hw]

theorem pow_shift_fun (backoff : Int) :
    ((fun k => backoff * (2 : Int) ^ k) ∘ Nat.succ) = (fun k => (backoff * 2) * 2 ^ k) := by
  funext k
  simp only [Function.comp, pow_succ]
  ring

theorem safe_post_loop_conflict_sleeps (ts st : Int) :
    ∀ (trace : List (Response × Int)) (backoff : Int),
      conflictSleepDurations (AttachCfg.safe_post_loop ts st backoff trace) =
        (List.range
            (conflictSleepDurations (AttachCfg.safe_post_loop ts st backoff trace)).length).map
          (fun k => backoff * 2 ^ k) := by
  intro trace
  induction trace with
  | nil => intro backoff; simp [AttachCfg.safe_post_loop, conflictSleepDurations]
  | cons p rest ih =>
    obtain ⟨r, now⟩ := p
    intro backoff
    cases h1 : isRateLimited r with
    | true =>
      by_cases h2 : now - st > ts
      · simp [AttachCfg.safe_post_loop, h1, h2, conflictSleepDurations]
      · simp only [AttachCfg.safe_post_loop, h1, if_true, if_neg h2]
        simpa [conflictSleepDurations, List.filter_append, wait_filter_conflict]
          using ih backoff
    | false =>
      cases h3 : (r.status == 409) with
      | false => simp [AttachCfg.safe_post_loop, h1, h3, conflictSleepDurations]
      | true =>
        by_cases h2 : now - st > ts
        · simp [AttachCfg.safe_post_loop, h1, h3, h2, conflictSleepDurations]
        · have ihr := ih (backoff * 2)
          simp only [AttachCfg.safe_post_loop, h1, h3, if_true, if_neg h2,
            Bool.false_eq_true, if_false]
          simp only [conflictSleepDurations] at ihr ⊢
          simp only [List.filter_cons, beq_self_eq_true, if_true, List.map_cons,
            List.length_cons]
          rw [List.range_succ_eq_map, List.map_cons, List.map_map, pow_shift_fun backoff,
            ← ihr]
          simp

theorem safe_post_loop_all_conflict_sleeps (ts st : Int) :
    ∀ (trace : List (Response × Int)) (backoff : Int),
      (∀ p ∈ trace, p.1.status = 409 ∧ p.2 - st ≤ ts) →
      sleepDurations (AttachCfg.safe_post_loop ts st backoff trace) =
        (List.range trace.length).map (fun k => backoff * 2 ^ k) := by
  intro trace
  induction trace with
  | nil => intro backoff _; simp [AttachCfg.safe_post_loop, sleepDurations]
  | cons p rest ih =>
    obtain ⟨r, now⟩ := p
    intro backoff hall
    have hst : r.status = 409 := (hall (r, now) (List.mem_cons_self ..)).1
    have hnow : now - st ≤ ts := (hall (r, now) (List.mem_cons_self ..)).2
    have hrest : ∀ p ∈ rest, p.1.status = 409 ∧ p.2 - st ≤ ts :=
      fun q hq => hall q (List.mem_cons_of_mem _ hq)
    have h1 : isRateLimited r = false := by simp [isRateLimited, hst]
    have h3 : (r.status == 409) = true := by simp [hst]
    have h2 : ¬ now - st > ts := by omega
    have ihr := ih (backoff * 2) hrest
    simp only [AttachCfg.safe_post_loop, h1, h3, if_true, if_neg h2,
      Bool.false_eq_true, if_false]
    simp only [sleepDurations] at ihr ⊢
    simp only [List.map_cons, List.length_cons]
    rw [List.range_succ_eq_map, List.map_cons, List.map_map, pow_shift_fun backoff, ← ihr]
    simp

/-- C4: the conflict back-off of `safe_post_request` starts at 1 second and
doubles after every conflict retry without any cap: on every run, whatever
the trace, the durations of the conflict sleeps form exactly the sequence
2^0, 2^1, 2^2, ... (so the k-th conflict retry, 1-based, sleeps 2^(k-1)
seconds); and on a trace consisting solely of in-budget 409 conflicts every
sleep of the run is a conflict sleep, one per response, with those same
durations. -/
theorem claim_C4 (ts st : Int) (trace : List (Response × Int)) :
    conflictSleepDurations (AttachCfg.safe_post_request ts st trace) =
      (List.range
          (conflictSleepDurations (AttachCfg.safe_post_request ts st trace)).length).map
        (fun k => (2 : Int) ^ k)
    ∧ ((∀ p ∈ trace, p.1.status = 409 ∧ p.2 - st ≤ ts) →
        sleepDurations (AttachCfg.safe_post_request ts st trace) =
          (List.range trace.length).map (fun k => (2 : Int) ^ k)) := by
  have hone : (fun k => (1 : Int) * 2 ^ k) = (fun k => (2 : Int) ^ k) := by
    funext k
    ring
  constructor
  · have := safe_post_loop_conflict_sleeps ts st trace 1
    rw [hone] at this
    exact this
  · intro hall
    have := safe_post_loop_all_conflict_sleeps ts st trace 1 hall
    rw [hone] at this
    exact this

/-- Witness for C4: three conflicts then success sleep exactly 1, 2, 4
seconds. -/
theorem claim_C4_witness :
    (∀ p ∈ [((conflictResponse : Response), (1 : Int)), (conflictResponse, 2),
        (conflictResponse, 3)], p.1.status = 409 ∧ p.2 - 0 ≤ 100)
    ∧ sleepDurations (AttachCfg.safe_post_request 100 0
        [(conflictResponse, 1), (conflictResponse, 2), (conflictResponse, 3)]) =
      (List.range 3).map (fun k => (2 : Int) ^ k) :=
  ⟨by decide,
   (claim_C4 100 0 [(conflictResponse, 1), (conflictResponse, 2), (conflictResponse, 3)]).2
     (by decide)⟩

theorem sum_wait_for_rate_limit_reset (a b : Int) :
    ((wait_for_rate_limit_reset a b).map (fun e => e.duration)).sum = max (a - b + 10) 0 := by
  unfold wait_for_rate_limit_reset
  by_cases hw : a - b + 10 > 0 <;> simp [hw] <;> omega

/-- C5: on a rate-limited 403 within budget, `safe_get_request` reads the
`X-RateLimit-Reset` header (which defaults to 0 when absent), sleeps for
`max(resetEpoch - now + 10, 0)` seconds in total on top of the rest of the
run, and returns whatever the retried request returns; in the concrete
scenario where the reset time is `now + 5`, the first sleep is exactly
15 = 5 + 10 seconds. -/
theorem claim_C5 (ts st now : Int) (r : Response) (rest : List (Response × Int))
    (h1 : isRateLimited r = true) (h2 : now - st ≤ ts) :
    (AttachCfg.safe_get_request ts st ((r, now) :: rest)).outcome =
      (AttachCfg.safe_get_request ts st rest).outcome
    ∧ (AttachCfg.safe_get_request ts st ((r, now) :: rest)).requests =
        (AttachCfg.safe_get_request ts st rest).requests + 1
    ∧ totalSleep (AttachCfg.safe_get_request ts st ((r, now) :: rest)) =
        max (get_rate_limit_reset_time r - now + 10) 0 +
          totalSleep (AttachCfg.safe_get_request ts st rest)
    ∧ (headerLookup r.headers "X-RateLimit-Reset" = none → get_rate_limit_reset_time r = 0)
    ∧ (get_rate_limit_reset_time r = now + 5 →
        (AttachCfg.safe_get_request ts st ((r, now) :: rest)).sleeps =
          ⟨now, 15, SleepCause.rateLimit⟩ ::
            (AttachCfg.safe_get_request ts st rest).sleeps) := by
  have h2n : ¬ now - st > ts := by omega
  refine ⟨?_, ?_, ?_, ?_, ?_⟩
  · simp [AttachCfg.safe_get_request, h1, h2n]
  · simp [AttachCfg.safe_get_request, h1, h2n]
  · simp only [AttachCfg.safe_get_request, h1, if_true, if_neg h2n]
    simp only [totalSleep, sleepDurations, List.map_append, List.sum_append]
    rw [sum_wait_for_rate_limit_reset]
  · intro h
    simp [get_rate_limit_reset_time, h]
  · intro hreset
    simp only [AttachCfg.safe_get_request, h1, if_true, if_neg h2n]
    have : wait_for_rate_limit_reset (get_rate_limit_reset_time r) now =
        [⟨now, 15, SleepCause.rateLimit⟩] := by
      unfold wait_for_rate_limit_reset
      rw [hreset]
      have h15 : now + 5 - now + 10 = 15 := by ring
      rw [h15]
      norm_num
    rw [this]
    simp

/-- Witness for C5: reset header 8 observed at clock 3 (reset = now + 5)
inside budget 100 sleeps exactly 15 seconds and returns the retried
result. -/
theorem claim_C5_witness :
    isRateLimited rlResponse = true ∧ (3 : Int) - 0 ≤ 100
    ∧ (AttachCfg.safe_get_request 100 0 [(rlResponse, 3), (okResponse, 16)]).outcome =
        (AttachCfg.safe_get_request 100 0 [(okResponse, 16)]).outcome
    ∧ (AttachCfg.safe_get_request 100 0 [(rlResponse, 3), (okResponse, 16)]).sleeps =
        ⟨3, 15, SleepCause.rateLimit⟩ ::
          (AttachCfg.safe_get_request 100 0 [(okResponse, 16)]).sleeps :=
  ⟨by decide, by decide,
   (claim_C5 100 0 3 rlResponse [(okResponse, 16)] (by decide) (by decide)).1,
   (claim_C5 100 0 3 rlResponse [(okResponse, 16)] (by decide) (by decide)).2.2.2.2
     (by decide)⟩

/-- C7: a response that is not a retryable case — not a rate-limited 403,
and for the POST client not a 409 — is returned to the caller as-is, with
zero sleeps and no further request issued; this covers 200 as well as 4xx
other than 403/409 and 5xx. -/
theorem claim_C7 (ts st now : Int) (r : Response) (rest : List (Response × Int))
    (h : isRateLimited r = false) :
    AttachCfg.safe_get_request ts st ((r, now) :: rest) = ⟨Outcome.ok r, [], 1⟩
    ∧ (r.status ≠ 409 →
        AttachCfg.safe_post_request ts st ((r, now) :: rest) = ⟨Outcome.ok r, [], 1⟩) := by
  constructor
  · simp [AttachCfg.safe_get_request, h]
  · intro h409
    have h3 : (r.status == 409) = false := by simpa using h409
    simp [AttachCfg.safe_post_request, AttachCfg.safe_post_loop, h, h3]

/-- Witness for C7: an immediate 200 is returned with zero sleeps and a
single request by both clients, and a 404 likewise by the GET client. -/
theorem claim_C7_witness :
    AttachCfg.safe_get_request 60 0 [((okResponse : Response), (1 : Int))] =
      ⟨Outcome.ok okResponse, [], 1⟩
    ∧ AttachCfg.safe_post_request 60 0 [((okResponse : Response), (1 : Int))] =
      ⟨Outcome.ok okResponse, [], 1⟩
    ∧ AttachCfg.safe_get_request 60 0 [((⟨404, []⟩ : Response), (1 : Int))] =
      ⟨Outcome.ok ⟨404, []⟩, [], 1⟩ :=
  ⟨(claim_C7 60 0 1 okResponse [] (by decide)).1,
   (claim_C7 60 0 1 okResponse [] (by decide)).2 (by decide),
   (claim_C7 60 0 1 ⟨404, []⟩ [] (by decide)).1⟩

theorem safe_post_loop_no_conflict (ts st : Int) :
    ∀ (trace : List (Response × Int)) (backoff : Int),
      (∀ p ∈ trace, p.1.status ≠ 409) →
      AttachCfg.safe_post_loop ts st backoff trace =
        AttachCfg.safe_get_request ts st trace := by
  intro trace
  induction trace with
  | nil => intro backoff _; simp [AttachCfg.safe_post_loop, AttachCfg.safe_get_request]
  | cons p rest ih =>
    obtain ⟨r, now⟩ := p
    intro backoff hall
    have hr : r.status ≠ 409 := hall (r, now) (List.mem_cons_self ..)
    have hrest : ∀ p ∈ rest, p.1.status ≠ 409 :=
      fun q hq => hall q (List.mem_cons_of_mem _ hq)
    have h3 : (r.status == 409) = false := by simpa using hr
    cases h1 : isRateLimited r with
    | true =>
      by_cases h2 : now - st > ts
      · simp [AttachCfg.safe_post_loop, AttachCfg.safe_get_request, h1, h2]
      · simp only [AttachCfg.safe_post_loop, AttachCfg.safe_get_request, h1, if_true,
          if_neg h2]
        rw [ih backoff hrest]
    | false =>
      simp [AttachCfg.safe_post_loop, AttachCfg.safe_get_request, h1, h3]

/-- C8: on any trace containing no 409 response, `safe_post_request` and
`safe_get_request` agree exactly — same outcome (including any timeout
error and its message), same sleeps, same number of requests. -/
theorem claim_C8 (ts st : Int) (trace : List (Response × Int))
    (h : ∀ p ∈ trace, p.1.status ≠ 409) :
    AttachCfg.safe_post_request ts st trace = AttachCfg.safe_get_request ts st trace :=
  safe_post_loop_no_conflict ts st trace 1 h

/-- Witness for C8 on a trace with a rate-limited 403 followed by a 200. -/
theorem claim_C8_witness :
    AttachCfg.safe_post_request 100 0 [(rlResponse, 3), (okResponse, 16)] =
      AttachCfg.safe_get_request 100 0 [(rlResponse, 3), (okResponse, 16)] :=
  claim_C8 100 0 [(rlResponse, 3), (okResponse, 16)] (by decide)

/-! ## Helper lemmas about the recursive add-topics clients -/

theorem addtopics_put_eq_get :
    ∀ trace : List (Response × Int),
      AddTopics.safe_put_request trace = AddTopics.safe_get_request trace := by
  intro trace
  induction trace with
  | nil => simp [AddTopics.safe_put_request, AddTopics.safe_get_request]
  | cons p rest ih =>
    obtain ⟨r, now⟩ := p
    cases h1 : isRateLimited r with
    | true =>
      simp only [AddTopics.safe_put_request, AddTopics.safe_get_request, h1, if_true]
      rw [ih]
    | false =>
      simp [AddTopics.safe_put_request, AddTopics.safe_get_request, h1]

theorem addtopics_get_no_timeout :
    ∀ (trace : List (Response × Int)) (msg : String),
      (AddTopics.safe_get_request trace).outcome ≠ Outcome.timeoutErr msg := by
  intro trace
  induction trace with
  | nil => intro msg; simp [AddTopics.safe_get_request]
  | cons p rest ih =>
    obtain ⟨r, now⟩ := p
    intro msg
    cases h1 : isRateLimited r with
    | true => simpa [AddTopics.safe_get_request, h1] using ih msg
    | false => simp [AddTopics.safe_get_request, h1]

theorem addtopics_get_ok_iff :
    ∀ trace : List (Response × Int),
      (∃ r, (AddTopics.safe_get_request trace).outcome = Outcome.ok r) ↔
        ∃ p ∈ trace, isRateLimited p.1 = false := by
  intro trace
  induction trace with
  | nil => simp [AddTopics.safe_get_request]
  | cons p rest ih =>
    obtain ⟨r, now⟩ := p
    cases h1 : isRateLimited r with
    | true =>
      simp only [AddTopics.safe_get_request, h1, if_true]
      constructor
      · intro h
        obtain ⟨q, hq, hq2⟩ := ih.mp h
        exact ⟨q, List.mem_cons_of_mem _ hq, hq2⟩
      · intro ⟨q, hq, hq2⟩
        rcases List.mem_cons.mp hq with rfl | hq
        · rw [h1] at hq2; cases hq2
        · exact ih.mpr ⟨q, hq, hq2⟩
    | false =>
      simp [AddTopics.safe_get_request, h1]

theorem addtopics_get_all_retryable :
    ∀ trace : List (Response × Int),
      (∀ p ∈ trace, isRateLimited p.1 = true) →
      (AddTopics.safe_get_request trace).outcome = Outcome.outOfResponses
      ∧ (AddTopics.safe_get_request trace).requests = trace.length := by
  intro trace
  induction trace with
  | nil => intro _; simp [AddTopics.safe_get_request]
  | cons p rest ih =>
    obtain ⟨r, now⟩ := p
    intro hall
    have h1 : isRateLimited r = true := hall (r, now) (List.mem_cons_self ..)
    have hrest : ∀ p ∈ rest, isRateLimited p.1 = true :=
      fun q hq => hall q (List.mem_cons_of_mem _ hq)
    have := ih hrest
    simp only [AddTopics.safe_get_request, h1, if_true]
    simp [this.1, this.2]

/-- C9: the recursive helpers of the add-topics and repo-information scripts
have no timeout: they can never produce a timeout error; they return a
response exactly when some response of the trace is not a rate-limited 403
(otherwise they retry through the entire trace, one request per response,
and the run ends only because the model trace is finite). -/
theorem claim_C9 (trace : List (Response × Int)) :
    (∀ msg, (AddTopics.safe_get_request trace).outcome ≠ Outcome.timeoutErr msg)
    ∧ (∀ msg, (AddTopics.safe_put_request trace).outcome ≠ Outcome.timeoutErr msg)
    ∧ ((∃ r, (AddTopics.safe_get_request trace).outcome = Outcome.ok r) ↔
        ∃ p ∈ trace, isRateLimited p.1 = false)
    ∧ ((∃ r, (AddTopics.safe_put_request trace).outcome = Outcome.ok r) ↔
        ∃ p ∈ trace, isRateLimited p.1 = false)
    ∧ ((∀ p ∈ trace, isRateLimited p.1 = true) →
        (AddTopics.safe_get_request trace).outcome = Outcome.outOfResponses
        ∧ (AddTopics.safe_get_request trace).requests = trace.length
        ∧ (AddTopics.safe_put_request trace).outcome = Outcome.outOfResponses
        ∧ (AddTopics.safe_put_request trace).requests = trace.length) := by
  refine ⟨addtopics_get_no_timeout trace, ?_, addtopics_get_ok_iff trace, ?_, ?_⟩
  · rw [addtopics_put_eq_get]
    exact addtopics_get_no_timeout trace
  · rw [addtopics_put_eq_get]
    exact addtopics_get_ok_iff trace
  · intro hall
    have hg := addtopics_get_all_retryable trace hall
    rw [addtopics_put_eq_get]
    exact ⟨hg.1, hg.2, hg.1, hg.2⟩

/-- Witness for C9: on a trace of two rate-limited responses both helpers
retry through the whole trace without any timeout error. -/
theorem claim_C9_witness :
    (∀ p ∈ [((rlResponse : Response), (3 : Int)), (rlResponse, 1000000)],
      isRateLimited p.1 = true)
    ∧ (AddTopics.safe_get_request [(rlResponse, 3), (rlResponse, 1000000)]).outcome =
        Outcome.outOfResponses
    ∧ (AddTopics.safe_get_request [(rlResponse, 3), (rlResponse, 1000000)]).requests = 2
    ∧ (AddTopics.safe_put_request [(rlResponse, 3), (rlResponse, 1000000)]).requests = 2 :=
  ⟨by decide,
   ((claim_C9 [(rlResponse, 3), (rlResponse, 1000000)]).2.2.2.2 (by decide)).1,
   ((claim_C9 [(rlResponse, 3), (rlResponse, 1000000)]).2.2.2.2 (by decide)).2.1,
   ((claim_C9 [(rlResponse, 3), (rlResponse, 1000000)]).2.2.2.2 (by decide)).2.2.2⟩

/-- C10: `add_topics_to_repo` issues no update when the new-topic list is
empty or every new topic is already present; when it does update, the
submitted list is duplicate-free and its members are exactly the union of
the current and new topics — in particular no current topic is removed. -/
theorem claim_C10 (current_topics new_topics : List String) :
    (new_topics = [] →
      AddTopics.add_topics_to_repo current_topics new_topics =
        AddTopics.TopicsAction.skipNoTopics)
    ∧ ((∀ t ∈ new_topics, t ∈ current_topics) →
        ∀ l, AddTopics.add_topics_to_repo current_topics new_topics ≠
          AddTopics.TopicsAction.update l)
    ∧ (∀ l, AddTopics.add_topics_to_repo current_topics new_topics =
          AddTopics.TopicsAction.update l →
        l.Nodup
        ∧ (∀ x, x ∈ l ↔ x ∈ current_topics ∨ x ∈ new_topics)
        ∧ (∀ x ∈ current_topics, x ∈ l)) := by
  refine ⟨?_, ?_, ?_⟩
  · intro h
    subst h
    simp [AddTopics.add_topics_to_repo]
  · intro hsub l
    unfold AddTopics.add_topics_to_repo
    by_cases hemp : new_topics.isEmpty = true
    · rw [if_pos hemp]
      simp
    · rw [if_neg hemp]
      have hall : new_topics.all (fun t => current_topics.contains t) = true := by
        rw [List.all_eq_true]
        intro t ht
        simpa using hsub t ht
      rw [if_pos hall]
      simp
  · intro l hl
    unfold AddTopics.add_topics_to_repo at hl
    by_cases hemp : new_topics.isEmpty = true
    · rw [if_pos hemp] at hl
      simp at hl
    · rw [if_neg hemp] at hl
      by_cases hall : new_topics.all (fun t => current_topics.contains t) = true
      · rw [if_pos hall] at hl
        simp at hl
      · rw [if_neg hall] at hl
        injection hl with hl2
        subst hl2
        refine ⟨List.nodup_dedup _, ?_, ?_⟩
        · intro x
          simp [List.mem_dedup]
        · intro x hx
          simp [List.mem_dedup, hx]

/-- Witness for C10: adding "b","c" to current topics "a","b" submits the
duplicate-free union. -/
theorem claim_C10_witness :
    AddTopics.add_topics_to_repo ["a", "b"] ["b", "c"] =
      AddTopics.TopicsAction.update ["a", "b", "c"]
    ∧ List.Nodup ["a", "b", "c"]
    ∧ (∀ x ∈ ["a", "b"], x ∈ ["a", "b", "c"]) :=
  ⟨by decide,
   ((claim_C10 ["a", "b"] ["b", "c"]).2.2 ["a", "b", "c"] (by decide)).1,
   ((claim_C10 ["a", "b"] ["b", "c"]).2.2 ["a", "b", "c"] (by decide)).2.2⟩

/-! ## Helper lemmas about the batch partition loop -/

theorem numBatches_zero (b : Nat) : AttachCfg.numBatches 0 b = 0 := by
  unfold AttachCfg.numBatches
  cases b with
  | zero => rfl
  | succ k =>
    have h : 0 + (k + 1) - 1 = k := by omega
    rw [h]
    exact Nat.div_eq_of_lt (by omega)

theorem numBatches_succ (n b : Nat) (hb : 1 ≤ b) (hn : 1 ≤ n) :
    AttachCfg.numBatches n b = AttachCfg.numBatches (n - b) b + 1 := by
  unfold AttachCfg.numBatches
  rcases le_or_lt b n with h | h
  · have h1 : n + b - 1 = (n - b + b - 1) + b := by omega
    rw [h1, Nat.add_div_right _ hb]
  · have h0 : n - b = 0 := by omega
    rw [h0]
    have hL : (n + b - 1) / b = 1 := Nat.div_eq_of_lt_le (by omega) (by omega)
    have hR : (0 + b - 1) / b = 0 := Nat.div_eq_of_lt (by omega)
    rw [hL, hR]

theorem batches_cons {α : Type} (l : List α) (b : Nat) (hb : 1 ≤ b) (hl : l ≠ []) :
    AttachCfg.batches l b = l.take b :: AttachCfg.batches (l.drop b) b := by
  unfold AttachCfg.batches
  have hn : 1 ≤ l.length := List.length_pos.mpr hl
  rw [List.length_drop, numBatches_succ l.length b hb hn, List.range_succ_eq_map,
    List.map_cons, List.map_map]
  congr 1
  · simp
  · apply List.map_congr_left
    intro i _
    simp only [Function.comp_apply, Nat.succ_eq_add_one]
    rw [List.drop_drop]
    have hmul : (i + 1) * b = b + i * b := by ring
    rw [hmul]

theorem batches_join {α : Type} (b : Nat) (hb : 1 ≤ b) :
    (l : List α) → (AttachCfg.batches l b).flatten = l
  | [] => by simp [AttachCfg.batches, numBatches_zero]
  | x :: xs => by
    rw [batches_cons (x :: xs) b hb (by simp), List.flatten_cons,
      batches_join b hb ((x :: xs).drop b)]
    exact List.take_append_drop b (x :: xs)
  termination_by l => l.length
  decreasing_by
    simp only [List.length_drop, List.length_cons]
    omega

theorem numBatches_eq_ceil (n b : Nat) (hb : 1 ≤ b) :
    (AttachCfg.numBatches n b : Int) = ⌈(n : Rat) / (b : Rat)⌉ := by
  have hb0 : 0 < b := hb
  have hdm := Nat.div_add_mod (n + b - 1) b
  have hmod : (n + b - 1) % b < b := Nat.mod_lt _ hb0
  have key := congrArg (· + 1) hdm
  simp only [] at key
  have hnb : n + b - 1 + 1 = n + b := by omega
  rw [hnb] at key
  have hdef : AttachCfg.numBatches n b = (n + b - 1) / b := rfl
  rw [← hdef] at key
  set q := AttachCfg.numBatches n b
  set r0 := (n + b - 1) % b
  have keyQ : (b : Rat) * (q : Rat) + (r0 : Rat) + 1 = (n : Rat) + (b : Rat) := by
    exact_mod_cast key
  have hmodsucc : r0 + 1 ≤ b := hmod
  have hmodQ : (r0 : Rat) + 1 ≤ (b : Rat) := by exact_mod_cast hmodsucc
  have hbQ : (0 : Rat) < (b : Rat) := by exact_mod_cast hb0
  have hrQ : (0 : Rat) ≤ (r0 : Rat) := by positivity
  symm
  rw [Int.ceil_eq_iff]
  push_cast
  constructor
  · rw [lt_div_iff₀ hbQ]
    nlinarith [keyQ, hrQ]
  · rw [div_le_iff₀ hbQ]
    nlinarith [keyQ, hmodQ]

theorem batches_sizes {α : Type} (l : List α) (b : Nat) (hb : 1 ≤ b) :
    (AttachCfg.batches l b).dropLast.all (fun p => p.length == b) = true := by
  have hb0 : 0 < b := hb
  unfold AttachCfg.batches
  cases hk : AttachCfg.numBatches l.length b with
  | zero => simp [hk]
  | succ m =>
    rw [List.range_succ, List.map_append]
    simp only [List.map_cons, List.map_nil]
    rw [show ((List.range m).map (fun i => (l.drop (i * b)).take b) ++
        [(l.drop (m * b)).take b]).dropLast =
        (List.range m).map (fun i => (l.drop (i * b)).take b) from
      List.dropLast_concat ..]
    rw [List.all_eq_true]
    intro p hp
    obtain ⟨i, hi, rfl⟩ := List.mem_map.mp hp
    have him : i < m := List.mem_range.mp hi
    have hile : i + 2 ≤ AttachCfg.numBatches l.length b := by omega
    have hdef : AttachCfg.numBatches l.length b = (l.length + b - 1) / b := rfl
    rw [hdef] at hile
    have hmul := (Nat.le_div_iff_mul_le hb0).mp hile
    have hexp : (i + 2) * b = i * b + 2 * b := by ring
    rw [hexp] at hmul
    simp only [List.length_take, List.length_drop, beq_iff_eq]
    generalize i * b = t at hmul ⊢
    omega

/-- C2: for every list and every batch size of at least 1, the batch loop
produces exactly the ceiling of N/B many batches (0 when the list is empty,
never one empty batch), the batches concatenate in order back to the
original list, and every batch except possibly the last has exactly B
elements. -/
theorem claim_C2 {α : Type} (l : List α) (b : Nat) (hb : 1 ≤ b) :
    ((AttachCfg.batches l b).length : Int) = ⌈(l.length : Rat) / (b : Rat)⌉
    ∧ (AttachCfg.batches l b).length = AttachCfg.numBatches l.length b
    ∧ (AttachCfg.batches l b).flatten = l
    ∧ (AttachCfg.batches l b).dropLast.all (fun p => p.length == b) = true
    ∧ (l = [] → AttachCfg.batches l b = []) := by
  have hlen : (AttachCfg.batches l b).length = AttachCfg.numBatches l.length b := by
    simp [AttachCfg.batches]
  refine ⟨?_, hlen, batches_join b hb l, batches_sizes l b hb, ?_⟩
  · rw [hlen]
    exact numBatches_eq_ceil l.length b hb
  · intro h
    subst h
    simp [AttachCfg.batches, numBatches_zero]

/-- Witness for C2 at the spec scenario: 7 repository names with batch size
3 give batches of sizes 3, 3, 1 that concatenate back to the input. -/
theorem claim_C2_witness :
    (1 : Nat) ≤ 3
    ∧ (AttachCfg.batches [10, 20, 30, 40, 50, 60, 70] 3).flatten =
        [10, 20, 30, 40, 50, 60, 70]
    ∧ (AttachCfg.batches [10, 20, 30, 40, 50, 60, 70] 3).dropLast.all
        (fun p => p.length == 3) = true
    ∧ (AttachCfg.batches [10, 20, 30, 40, 50, 60, 70] 3).length =
        AttachCfg.numBatches 7 3 :=
  ⟨by decide, (claim_C2 [10, 20, 30, 40, 50, 60, 70] 3 (by decide)).2.2.1,
   (claim_C2 [10, 20, 30, 40, 50, 60, 70] 3 (by decide)).2.2.2.1,
   (claim_C2 [10, 20, 30, 40, 50, 60, 70] 3 (by decide)).2.1⟩

/-- C6: `get_environment_variable_or_raise` fails, with an error naming the
requested variable, exactly when that variable is unset or set to the empty
string; the numeric settings with defaults never fail on an absent variable —
`BATCH_SIZE` falls back to 1 and `API_TIMEOUT_SECONDS` to 60. -/
theorem claim_C6 (env : String → Option String) (name : String) :
    ((∃ e, AttachCfg.get_environment_variable_or_raise env name = Except.error e) ↔
      (env name = none ∨ env name = some ""))
    ∧ (∀ e, AttachCfg.get_environment_variable_or_raise env name = Except.error e →
        e.env_var_name = name)
    ∧ (env "BATCH_SIZE" = none → AttachCfg.get_repo_batch_size env = Except.ok 1)
    ∧ (env "API_TIMEOUT_SECONDS" = none →
        AttachCfg.get_api_timeout_seconds env = Except.ok 60) := by
  refine ⟨?_, ?_, ?_, ?_⟩
  · unfold AttachCfg.get_environment_variable_or_raise
    cases henv : env name with
    | none => simp [henv]
    | some v =>
      by_cases hv : v = ""
      · subst hv
        simp
      · simp [hv]
  · intro e he
    unfold AttachCfg.get_environment_variable_or_raise at he
    cases henv : env name with
    | none =>
      rw [henv] at he
      have h2 : ({ env_var_name := name } : AttachCfg.EnvVarMissingError) = e :=
        Except.error.inj he
      rw [← h2]
    | some v =>
      rw [henv] at he
      have he2 : (if v = "" then Except.error ⟨name⟩ else Except.ok v) =
          Except.error e := he
      by_cases hv : v = ""
      · rw [if_pos hv] at he2
        have h2 : ({ env_var_name := name } : AttachCfg.EnvVarMissingError) = e :=
          Except.error.inj he2
        rw [← h2]
      · rw [if_neg hv] at he2
        exact Except.noConfusion he2
  · intro h
    simp [AttachCfg.get_repo_batch_size, h]
  · intro h
    unfold AttachCfg.get_api_timeout_seconds
    rw [h]
    have hparse : AttachCfg.pyFloat? ((none : Option String).getD "60") =
        some ((60 : Int) : Rat) := by
      simp only [Option.getD]
      simp [AttachCfg.pyFloat?]
      decide
    rw [hparse]
    norm_num

/-- Witness for C6 on the empty environment: the required credential lookup
fails and both numeric settings fall back to their defaults. -/
theorem claim_C6_witness :
    (∃ e, AttachCfg.get_environment_variable_or_raise
      (fun _ => (none : Option String)) "GITHUB_PAT" = Except.error e)
    ∧ AttachCfg.get_repo_batch_size (fun _ => (none : Option String)) = Except.ok 1
    ∧ AttachCfg.get_api_timeout_seconds (fun _ => (none : Option String)) =
        Except.ok 60 :=
  ⟨(claim_C6 (fun _ => none) "GITHUB_PAT").1.mpr (Or.inl rfl),
   (claim_C6 (fun _ => none) "GITHUB_PAT").2.2.1 rfl,
   (claim_C6 (fun _ => none) "GITHUB_PAT").2.2.2 rfl⟩
